import Mathlib

/-!
Shallow embedding of the SteamKeyManager external-API access layer
(`src/server/lib/steam-parser.ts`, `src/server/lib/request-manager.ts`,
`src/server/lib/market-price.ts`) together with proofs about the
behaviour asserted by the specification.

Conventions used throughout:

* JavaScript `BigInt` values are modelled as `Nat` (both are exact,
  arbitrary-precision, and all values reaching them here are non-negative).
* JavaScript `Number` values holding integers below 2^53 are modelled
  exactly as `Nat`/`Int`; `ToInt32` coercions performed by the 32-bit
  bitwise operators are modelled explicitly.
* A JavaScript `number` that may be `NaN` is modelled as `Option ℚ`
  (`none` = NaN); a `number | null` is then `Option (Option ℚ)`.
* Clock time is modelled as `Int` milliseconds; network I/O is modelled
  by passing the upstream response (or transport failure) as an explicit
  oracle argument.
* `throw`/`try`/`catch` are modelled with `Except String`.
-/

namespace SKM

/-! ### Decimal digit strings

`BigInt.prototype.toString` / `Number.prototype.toString` produce the
canonical decimal representation; `BigInt(string)` parses it.  We model
both with executable functions below.  `natDigitsRev` carries an explicit
fuel argument so that it is structurally recursive (and hence reducible
by the kernel); any fuel `≥ n` gives the digit list of `n`,
least-significant first. -/

def natDigitsRev : Nat → Nat → List Nat
  | 0, _ => []
  | fuel + 1, n => if n = 0 then [] else n % 10 :: natDigitsRev fuel (n / 10)

/-- Canonical decimal rendering of a natural number (`toString` in JS). -/
def natToString (n : Nat) : String :=
  if n = 0 then "0" else String.mk (((natDigitsRev n n).reverse).map digitToChar)
where
  digitToChar : Nat → Char
    | 0 => '0' | 1 => '1' | 2 => '2' | 3 => '3' | 4 => '4'
    | 5 => '5' | 6 => '6' | 7 => '7' | 8 => '8' | 9 => '9'
    | _ => '?'

/-- Canonical decimal rendering of an integer (template-literal `${z}`). -/
def intToString (i : Int) : String :=
  if i < 0 then "-" ++ natToString i.natAbs else natToString i.natAbs

/-- Numeric value of a decimal digit character. -/
def charToDigit (c : Char) : Nat := c.toNat - 48

/-- Value of a big-endian digit-character list (`BigInt(s)` on an
all-digit string `s`). -/
def valDigitsBE (l : List Char) : Nat :=
  l.foldl (fun a c => a * 10 + charToDigit c) 0

/-- Value of a little-endian digit list. -/
def natVal (ds : List Nat) : Nat :=
  ds.foldr (fun d a => a * 10 + d) 0

/-! #### Lemmas about digit strings -/

theorem natDigitsRev_val {fuel n : Nat} (h : n ≤ fuel) :
    natVal (natDigitsRev fuel n) = n := by
  induction fuel generalizing n with
  | zero => interval_cases n; rfl
  | succ fuel ih =>
    by_cases hn : n = 0
    · subst hn; simp [natDigitsRev, natVal]
    · have hdiv : n / 10 ≤ fuel := by
        have : n / 10 < n := Nat.div_lt_self (Nat.pos_of_ne_zero hn) (by omega)
        omega
      simp only [natDigitsRev, hn, if_false, natVal, List.foldr_cons]
      have := ih hdiv
      simp only [natVal] at this
      rw [this]
      omega

theorem natDigitsRev_lt_ten {fuel n d : Nat} (h : d ∈ natDigitsRev fuel n) :
    d < 10 := by
  induction fuel generalizing n with
  | zero => simp [natDigitsRev] at h
  | succ fuel ih =>
    by_cases hn : n = 0
    · simp [natDigitsRev, hn] at h
    · simp only [natDigitsRev, hn, if_false, List.mem_cons] at h
      rcases h with h | h
      · omega
      · exact ih h

theorem natDigitsRev_fuel {f₁ f₂ n : Nat} (h₁ : n ≤ f₁) (h₂ : n ≤ f₂) :
    natDigitsRev f₁ n = natDigitsRev f₂ n := by
  induction f₁ generalizing f₂ n with
  | zero =>
    interval_cases n
    cases f₂ <;> simp [natDigitsRev]
  | succ f₁ ih =>
    cases f₂ with
    | zero => interval_cases n; simp [natDigitsRev]
    | succ f₂ =>
      by_cases hn : n = 0
      · simp [natDigitsRev, hn]
      · have hd : n / 10 < n := Nat.div_lt_self (Nat.pos_of_ne_zero hn) (by omega)
        simp only [natDigitsRev, hn, if_false]
        congr 1
        exact ih (by omega) (by omega)

theorem natDigitsRev_ne_nil {fuel n : Nat} (h0 : 0 < n) (h : n ≤ fuel) :
    natDigitsRev fuel n ≠ [] := by
  cases fuel with
  | zero => omega
  | succ fuel =>
    have hn : n ≠ 0 := by omega
    simp [natDigitsRev, hn]

theorem charToDigit_digitToChar {d : Nat} (h : d < 10) :
    charToDigit (natToString.digitToChar d) = d := by
  interval_cases d <;> rfl

theorem isDigit_digitToChar {d : Nat} (h : d < 10) :
    (natToString.digitToChar d).isDigit = true := by
  interval_cases d <;> rfl

theorem valDigitsBE_append (l₁ l₂ : List Char) :
    valDigitsBE (l₁ ++ l₂) =
      valDigitsBE l₁ * 10 ^ l₂.length + valDigitsBE l₂ := by
  induction l₂ using List.reverseRecOn with
  | nil => simp [valDigitsBE]
  | append_singleton l₂ c ih =>
    simp only [valDigitsBE, ← List.append_assoc, List.foldl_append, List.foldl_cons,
      List.foldl_nil, List.length_append, List.length_cons, List.length_nil] at *
    rw [ih]
    ring

theorem valDigitsBE_digits (ds : List Nat) (h : ∀ d ∈ ds, d < 10) :
    valDigitsBE (ds.reverse.map natToString.digitToChar) = natVal ds := by
  induction ds with
  | nil => rfl
  | cons d ds ih =>
    have hd : d < 10 := h d (List.mem_cons_self _ _)
    simp only [List.reverse_cons, List.map_append, List.map_cons, List.map_nil]
    rw [valDigitsBE_append]
    simp only [List.length_cons, List.length_nil, pow_one]
    rw [ih (fun x hx => h x (List.mem_cons_of_mem _ hx))]
    simp only [natVal, List.foldr_cons, valDigitsBE, List.foldl_cons, List.foldl_nil]
    rw [charToDigit_digitToChar hd]
    omega

/-- Round-trip: parsing the canonical decimal rendering gives back `n`. -/
theorem valDigitsBE_natToString (n : Nat) :
    valDigitsBE (natToString n).data = n := by
  by_cases hn : n = 0
  · subst hn; rfl
  · simp only [natToString, hn, if_false]
    change valDigitsBE ((natDigitsRev n n).reverse.map natToString.digitToChar) = n
    rw [valDigitsBE_digits _ (fun d hd => natDigitsRev_lt_ten hd)]
    exact natDigitsRev_val le_rfl

theorem natToString_all_digits (n : Nat) :
    ∀ c ∈ (natToString n).data, c.isDigit = true := by
  intro c hc
  by_cases hn : n = 0
  · subst hn
    simp only [natToString, if_true] at hc
    change c ∈ ['0'] at hc
    simp at hc
    subst hc; rfl
  · simp only [natToString, hn, if_false] at hc
    change c ∈ (natDigitsRev n n).reverse.map natToString.digitToChar at hc
    simp only [List.mem_map, List.mem_reverse] at hc
    obtain ⟨d, hd, rfl⟩ := hc
    exact isDigit_digitToChar (natDigitsRev_lt_ten hd)

theorem natToString_ne_empty (n : Nat) : (natToString n).data ≠ [] := by
  by_cases hn : n = 0
  · subst hn; simp [natToString]
  · simp only [natToString, hn, if_false]
    change (natDigitsRev n n).reverse.map natToString.digitToChar ≠ []
    simp only [ne_eq, List.map_eq_nil_iff, List.reverse_eq_nil_iff]
    exact natDigitsRev_ne_nil (Nat.pos_of_ne_zero hn) le_rfl

/-! ### Substring tests (JS `String.prototype.includes`) -/

/-- `startsWithL pat l` : `pat` is a prefix of `l`. -/
def startsWithL : List Char → List Char → Bool
  | [], _ => true
  | _ :: _, [] => false
  | p :: ps, h :: hs => p = h && startsWithL ps hs

/-- `includesL pat l` : `pat` occurs contiguously in `l`
(JS `l.includes(pat)`). -/
def includesL (pat : List Char) : List Char → Bool
  | [] => pat.isEmpty
  | c :: t => startsWithL pat (c :: t) || includesL pat t

/-- JS `s.includes(pat)`. -/
def strIncludes (s pat : String) : Bool := includesL pat.data s.data

theorem startsWithL_iff (pat l : List Char) :
    startsWithL pat l = true ↔ pat <+: l := by
  induction pat generalizing l with
  | nil => simp [startsWithL]
  | cons p ps ih =>
    cases l with
    | nil => simp [startsWithL]
    | cons c t =>
      simp only [startsWithL, Bool.and_eq_true, decide_eq_true_eq, ih,
        List.cons_prefix_cons]

theorem includesL_iff (pat l : List Char) :
    includesL pat l = true ↔ pat <:+: l := by
  induction l with
  | nil => simp [includesL, List.isEmpty_iff, List.infix_nil]
  | cons c t ih =>
    simp only [includesL, Bool.or_eq_true, startsWithL_iff, ih,
      List.infix_cons_iff]

/-- Substring monotonicity: if a name includes `q` and `p` occurs in `q`,
the name includes `p`. -/
theorem strIncludes_trans {s q p : String}
    (hq : strIncludes s q = true) (hp : includesL p.data q.data = true) :
    strIncludes s p = true := by
  simp only [strIncludes, includesL_iff] at *
  exact hp.trans hq

/-! ### `steam-parser.ts` : SteamID conversions

Embedding of `SteamParser.getSteamId`, `convertSteamID64ToSteamID` and
`convertSteamIDToSteamID64`.  Regular-expression tests are embedded as
explicit character-list predicates. -/

/-- Test of `/^STEAM_[0-5]:[01]:\d+$/` (`getSteamId`, line 38). -/
def legacyMatchL : List Char → Bool
  | 'S' :: 'T' :: 'E' :: 'A' :: 'M' :: '_' :: u :: ':' :: y :: ':' :: zs =>
    ('0' ≤ u && u ≤ '5') && (y = '0' || y = '1') &&
      (!zs.isEmpty && zs.all Char.isDigit)
  | _ => false

def legacyMatch (s : String) : Bool := legacyMatchL s.data

/-- Test of `/^7656119\d{10}$/` (`getSteamId`, line 43). -/
def id64MatchL : List Char → Bool
  | '7' :: '6' :: '5' :: '6' :: '1' :: '1' :: '9' :: rest =>
    rest.length = 10 && rest.all Char.isDigit
  | _ => false

def id64Match (s : String) : Bool := id64MatchL s.data

/-- Capture groups of `/^STEAM_(\d+):([01]):(\d+)$/`
(`convertSteamIDToSteamID64`, line 153): universe digits, the `[01]`
character, and the account-number digits.  The greedy `(\d+)` before a
`:` is exactly `takeWhile isDigit`. -/
def steamParts : List Char → Option (List Char × Char × List Char)
  | 'S' :: 'T' :: 'E' :: 'A' :: 'M' :: '_' :: rest =>
    let us := rest.takeWhile Char.isDigit
    match rest.dropWhile Char.isDigit with
    | ':' :: y :: ':' :: zs =>
      if !us.isEmpty && (y = '0' || y = '1') && !zs.isEmpty &&
          zs.all Char.isDigit then
        some (us, y, zs)
      else none
    | _ => none
  | _ => none

/-- `SteamParser.convertSteamIDToSteamID64` (lines 152-167).  The match
failure throws `'Invalid SteamID format'`; the universe capture group is
bound by the source but unused in the formula
`76561197960265728n + z*2n + y`. -/
def convertSteamIDToSteamID64 (s : String) : Except String String :=
  match steamParts s.data with
  | none => .error "Invalid SteamID format"
  | some (_us, y, zs) =>
    let z := valDigitsBE zs
    let yv : Nat := if y = '1' then 1 else 0
    .ok (natToString (76561197960265728 + z * 2 + yv))

/-- JS `ToInt32` applied to a `Number` holding a value `< 2^32`: the
operand of the 32-bit bitwise operators `& 1` and `>> 1`. -/
def toInt32 (a : Nat) : Int :=
  if a < 2147483648 then (a : Int) else (a : Int) - 4294967296

/-- `SteamParser.convertSteamID64ToSteamID` (lines 81-90).
`BigInt(steamID64) >> 56n & 0xFFn` is `n / 2^56 % 256` and
`& 0xFFFFFFFFn` is `n % 2^32` (both exact on non-negative `BigInt`).
`accountIdLow` is a JS `Number` (exact: `< 2^32 < 2^53`); the 32-bit
operators coerce it with `ToInt32`, so `& 1` yields the low bit and
`>> 1` is the arithmetic shift, i.e. flooring division of the signed
32-bit reinterpretation. -/
def convertSteamID64ToSteamID (s : String) : String :=
  let n := valDigitsBE s.data
  let univ : Nat := n / 72057594037927936 % 256
  let accountIdLow : Nat := n % 4294967296
  let y : Nat := accountIdLow % 2
  let z : Int := Int.fdiv (toInt32 accountIdLow) 2
  "STEAM_" ++ natToString univ ++ ":" ++ natToString y ++ ":" ++
    intToString z

/-- Settings provider record (`storage.getSettings()`), restricted to the
field `getSteamId` reads. -/
structure Settings where
  steamApiKey : Option String

/-- Outcome of the `ResolveVanityURL` upstream call: either the
`fetch`/`json` rejection, or the parsed `data.response` object
(`success`, `steamid`, `message`).  A missing `response` object is
modelled by `success ≠ 1` with the fields empty. -/
inductive VanityResult where
  | netErr (msg : String)
  | resp (success : Nat) (steamid : String) (message : Option String)

/-- The `try`-block body of the vanity branch of `getSteamId`
(lines 48-68).  The construction of the request URL from the cleaned
vanity name is not modelled; the upstream response is the oracle `v`. -/
def settingsApiKey (st : Option Settings) : Option String :=
  match st with
  | none => none
  | some s => s.steamApiKey

def vanityBody (st : Option Settings) (v : VanityResult) :
    Except String String := do
  match settingsApiKey st with
  | none => throw "Steam API key not configured"
  | some _ =>
    match v with
    | .netErr m => throw m
    | .resp success steamid message =>
      if success = 1 then
        pure (convertSteamID64ToSteamID steamid)
      else
        throw ("Failed to resolve vanity URL: " ++
          (message.getD "Unknown error"))

/-- `SteamParser.getSteamId` (lines 36-78) with the `try`/`catch`
explicit: the result is `Except.ok` of what the caller receives, and an
`Except.error` would model an exception escaping to the caller. -/
def getSteamIdE (st : Option Settings) (v : VanityResult) (id : String) :
    Except String (Option String) :=
  if legacyMatch id then pure (some id)
  else if id64Match id then pure (some (convertSteamID64ToSteamID id))
  else
    Except.tryCatch
      (do
        let s ← vanityBody st v
        pure (some s))
      (fun _e => pure none)

/-- What the caller of `getSteamId` receives. -/
def getSteamId (st : Option Settings) (v : VanityResult) (id : String) :
    Option String :=
  match getSteamIdE st v id with
  | .ok o => o
  | .error _ => none

/-! ### `request-manager.ts` : inventory rate limiting

Embedding of `RequestManager.enforceRateLimit` and the dispatch part of
`makeRequest` for inventory-class requests
(`url.includes('/inventory/')` true), driven by a fake clock.  Times are
`Int` milliseconds.  A sequential caller issues the next request the
moment the previous one returns; the `fetch` itself is instantaneous on
the fake clock, so the return time equals the dispatch time. -/

/-- The mutable fields of `RequestManager` touched by the inventory
quota: `lastRequestTime`, `inventoryRequestsThisPeriod`,
`periodStartTime`. -/
structure RMState where
  lastRequestTime : Int
  inventoryRequestsThisPeriod : Nat
  periodStartTime : Int
deriving DecidableEq, Repr

/-- `INVENTORY_PERIOD_MS = 30 * 60 * 1000`. -/
def INVENTORY_PERIOD_MS : Int := 1800000

/-- `maxInventoryRequestsPer30Min` (initialised to `5` and never
reassigned in the source). -/
def maxInventoryRequestsPer30Min : Nat := 5

/-- `RequestManager.enforceRateLimit` (lines 48-83) for an inventory
URL.  `now` is `Date.now()` at entry; `minDelay` is the value
`max(8000, baseDelay * 4) + getRandomDelay()` computed at lines 76-77,
taken as a parameter because it mixes configuration and randomness.
Returns the clock time after all `await delay(...)` suspensions together
with the updated counter fields.  Note the source compares
`timeSinceLastRequest = now - this.lastRequestTime` using the stale
`now` captured at entry (line 50), even after the quota wait. -/
def enforceRateLimitInv (s : RMState) (now minDelay : Int) :
    Int × RMState :=
  let (cnt, pstart) :=
    if now - s.periodStartTime > INVENTORY_PERIOD_MS then (0, now)
    else (s.inventoryRequestsThisPeriod, s.periodStartTime)
  let (t₁, cnt₁, pstart₁) :=
    if cnt ≥ maxInventoryRequestsPer30Min then
      let timeToWait := INVENTORY_PERIOD_MS - (now - pstart) + 60000
      (now + timeToWait, 0, now + timeToWait)
    else (now, cnt, pstart)
  let timeSinceLastRequest := now - s.lastRequestTime
  let t₂ :=
    if timeSinceLastRequest < minDelay then
      t₁ + (minDelay - timeSinceLastRequest)
    else t₁
  (t₂, { s with inventoryRequestsThisPeriod := cnt₁,
                periodStartTime := pstart₁ })

/-- The dispatch of one inventory request in `makeRequest`
(lines 85-117): after `enforceRateLimit`, `lastRequestTime := Date.now()`
and the inventory counter is incremented just before `fetch`.  Returns
the dispatch time and the post-dispatch state. -/
def dispatchInv (s : RMState) (now minDelay : Int) : Int × RMState :=
  let (t, s') := enforceRateLimitInv s now minDelay
  (t, { s' with
          lastRequestTime := t,
          inventoryRequestsThisPeriod :=
            s'.inventoryRequestsThisPeriod + 1 })

/-- A sequential trace of inventory requests: the `k`-th entry of
`minDelays` is the randomized minimum spacing for the `k`-th call; each
call is issued at the instant the previous dispatch returns.  Each
record is `(dispatchTime, counterAfterDispatch, periodStartTime)`. -/
def runInv (s : RMState) (now : Int) : List Int → List (Int × Nat × Int)
  | [] => []
  | d :: ds =>
    let (t, s') := dispatchInv s now d
    (t, s'.inventoryRequestsThisPeriod, s'.periodStartTime) ::
      runInv s' t ds

/-! ### `request-manager.ts` : 429 exponential backoff -/

/-- `new URL(url).pathname` for an `http(s)` URL: everything from the
first `/` after the `scheme://host` part up to (excluding) `?` or `#`;
`/` when the URL has no path. -/
def dropSchemeHost : List Char → List Char
  | ':' :: '/' :: '/' :: t => t
  | _ :: t => dropSchemeHost t
  | [] => []

def urlPathname (url : String) : String :=
  let afterHost := (dropSchemeHost url.data).dropWhile (fun c => c ≠ '/')
  let path := afterHost.takeWhile (fun c => c ≠ '?' && c ≠ '#')
  if path.isEmpty then "/" else String.mk path

/-- `MAX_RETRY_ATTEMPTS = 3`. -/
def MAX_RETRY_ATTEMPTS : Nat := 3

/-- The error message thrown when the retry budget is exhausted. -/
def rateLimitErrorMsg : String :=
  "Rate limit exceeded after 3 attempts. Steam API temporarily unavailable."

/-- The retry loop of `makeRequest` (lines 85-167) for one logical path,
restricted to HTTP-status outcomes (line 126: only a 429 triggers the
internal retry; any other status is returned to the caller).

`statuses i` is the HTTP status of the `i`-th `fetch`; `a` is the
`retryAttempts` entry for the path at entry (`get(...) || 0`, an absent
entry being `0`).  The result is
`(backoff delays awaited, ok fetchIndex | error message, counter left in the map)`;
`delete` is modelled by leaving `0`.  Per iteration the source reads the
counter (line 89), unconditionally deletes it (line 120), fetches, and
on a 429 with `currentAttempts < MAX_RETRY_ATTEMPTS` waits
`min(300000, 2^currentAttempts * 60000)` and recurses, having stored
`currentAttempts + 1` (lines 128-133); otherwise it deletes the counter
and throws (lines 135-136).

The recursion depth from any entry counter is at most `4`, so a fuel of
`4` makes the function total; the fuel-exhausted branch is unreachable
from `makeRequest429`. -/
def makeRequestGo (statuses : Nat → Nat) :
    Nat → Nat → Nat → List Int × Except String Nat × Nat
  | fuel + 1, i, a =>
    if statuses i = 429 then
      if a < MAX_RETRY_ATTEMPTS then
        let backoffDelay : Int := min 300000 (2 ^ a * 60000)
        let r := makeRequestGo statuses fuel (i + 1) (a + 1)
        (backoffDelay :: r.1, r.2)
      else ([], .error rateLimitErrorMsg, 0)
    else ([], .ok i, 0)
  | 0, _, _ => ([], .error rateLimitErrorMsg, 0)

/-- One `makeRequest` call (with its internal retries) for a path whose
`retryAttempts` entry is `a`. -/
def makeRequest429 (statuses : Nat → Nat) (a : Nat) :
    List Int × Except String Nat × Nat :=
  makeRequestGo statuses 4 0 a

/-! ### `market-price.ts` : price parsing and cache

A JS `number` that may be `NaN` is `JSNum := Option ℚ` (`none` = NaN);
the `number | null` type of `getItemPrice` is `Option JSNum`. -/

abbrev JSNum := Option ℚ

/-- `priceString.replace(/[^\d.,]/g, '')` (line 73). -/
def cleanPriceChars (s : String) : List Char :=
  s.data.filter (fun c => c.isDigit || c = '.' || c = ',')

/-- JS `String.prototype.lastIndexOf` for a single character
(`-1` when absent). -/
def lastIndexOfC (l : List Char) (c : Char) : Int :=
  match l.reverse.findIdx? (· = c) with
  | some i => (l.length : Int) - 1 - i
  | none => -1

/-- JS `l.replace(a, b)` with a plain one-character string pattern:
replaces only the first occurrence. -/
def replaceFirstC : List Char → Char → Char → List Char
  | [], _, _ => []
  | c :: t, a, b => if c = a then b :: t else c :: replaceFirstC t a b

/-- The separator normalisation of `MarketPrice.parsePriceString`
(lines 71-91): the string handed to `parseFloat`.
`replace(/\./g,'')` / `replace(/,/g,'')` remove every occurrence
(filter); `replace(',', '.')` replaces only the first. -/
def parsePriceNormalize (s : String) : List Char :=
  let cleaned := cleanPriceChars s
  if cleaned.contains ',' && cleaned.contains '.' then
    if lastIndexOfC cleaned ',' > lastIndexOfC cleaned '.' then
      replaceFirstC (cleaned.filter (fun c => c ≠ '.')) ',' '.'
    else
      cleaned.filter (fun c => c ≠ ',')
  else if cleaned.contains ',' then
    replaceFirstC cleaned ',' '.'
  else cleaned

/-- JS `parseFloat` on a string drawn from the characters
`[0-9.,+-]` (the call site only ever passes normalised price strings,
which contain no whitespace and no exponent marker): parse an optional
sign, then the longest prefix `digits[.digits]`; `NaN` (`none`) when
that prefix is empty. -/
def jsSign (l : List Char) : ℚ × List Char :=
  match l with
  | c :: t =>
    if c = '-' then ((-1 : ℚ), t)
    else if c = '+' then ((1 : ℚ), t)
    else ((1 : ℚ), c :: t)
  | [] => ((1 : ℚ), [])

def jsParseFloatMag (sign : ℚ) (l₁ : List Char) : JSNum :=
  let ds := l₁.takeWhile Char.isDigit
  let rest := l₁.dropWhile Char.isDigit
  let fs :=
    match rest with
    | '.' :: t => t.takeWhile Char.isDigit
    | _ => []
  if ds.isEmpty && fs.isEmpty then none
  else
    some (sign * ((valDigitsBE ds : ℚ) +
      (valDigitsBE fs : ℚ) / ((10 ^ fs.length : Nat) : ℚ)))

def jsParseFloat (l : List Char) : JSNum :=
  jsParseFloatMag (jsSign l).1 (jsSign l).2

/-- `MarketPrice.parsePriceString` (lines 71-94): a JS `number`,
possibly `NaN`. -/
def parsePriceString (s : String) : JSNum :=
  jsParseFloat (parsePriceNormalize s)

/-- Parsed body of a `priceoverview` response.  `lowest_price` /
`median_price` are absent (`none`) or a string; JS truthiness makes the
empty string falsy as well. -/
structure PriceResp where
  success : Bool
  lowest_price : Option String
  median_price : Option String

/-- JS truthiness of an optional string field. -/
def jsTruthyStr : Option String → Bool
  | none => false
  | some s => !s.isEmpty

/-- Outcome of the market-price network call. -/
inductive PriceOutcome where
  | netErr (msg : String)
  | resp (status : Nat) (body : PriceResp)

/-- `response.ok`: status in the range 200-299. -/
def httpOk (status : Nat) : Bool := 200 ≤ status && status < 300

/-- The in-memory `priceCache`: `Map.set` prepends, `Map.get` takes the
first (i.e. most recent) binding. -/
abbrev PriceCache := List (String × JSNum × Int)

def cacheGet (c : PriceCache) (k : String) : Option (JSNum × Int) :=
  (c.find? (fun e => e.1 = k)).map (fun e => e.2)

def cacheSet (c : PriceCache) (k : String) (v : JSNum × Int) : PriceCache :=
  (k, v) :: c

/-- `CACHE_DURATION = 24 * 60 * 60 * 1000`. -/
def PRICE_CACHE_DURATION : Int := 86400000

/-- The cache key `` `${appId}_${marketHashName}_${currency}` ``. -/
def priceKey (appId marketHashName : String) (currency : Nat) : String :=
  appId ++ "_" ++ marketHashName ++ "_" ++ natToString currency

/-- Result of one `MarketPrice.getItemPrice` call: the value handed to
the caller (`none` = JS `null`), the number of network requests issued,
the cache afterwards, and whether the error path logged. -/
structure GetPriceResult where
  value : Option JSNum
  networkCalls : Nat
  cache : PriceCache
  logged : Bool
deriving DecidableEq

/-- `MarketPrice.getItemPrice` (lines 19-68).  The `try`/`catch` spans
the whole body; every `throw` lands in the `catch`, which logs and
returns `null`.  On a hit within `CACHE_DURATION` the cached value is
returned with no network call; otherwise one request is issued and the
parsed price is cached only when it is not `null` (line 54; a `NaN`
price is `!== null` and is cached). -/
def getItemPrice (c : PriceCache) (now : Int) (appId marketHashName : String)
    (currency : Nat) (outcome : PriceOutcome) : GetPriceResult :=
  let cacheKey := priceKey appId marketHashName currency
  match cacheGet c cacheKey with
  | some (p, ts) =>
    if now - ts < PRICE_CACHE_DURATION then
      { value := some p, networkCalls := 0, cache := c, logged := false }
    else getItemPriceMiss c now cacheKey outcome
  | none => getItemPriceMiss c now cacheKey outcome
where
  /-- The cache-miss path: one network request, then status / `success`
  checks and price extraction. -/
  getItemPriceMiss (c : PriceCache) (now : Int) (cacheKey : String)
      (outcome : PriceOutcome) : GetPriceResult :=
    match outcome with
    | .netErr _ =>
      { value := none, networkCalls := 1, cache := c, logged := true }
    | .resp status body =>
      if !httpOk status then
        { value := none, networkCalls := 1, cache := c, logged := true }
      else if !body.success then
        { value := none, networkCalls := 1, cache := c, logged := true }
      else
        let price : Option JSNum :=
          if jsTruthyStr body.lowest_price then
            some (parsePriceString (body.lowest_price.getD ""))
          else if jsTruthyStr body.median_price then
            some (parsePriceString (body.median_price.getD ""))
          else none
        let c' :=
          match price with
          | some p => cacheSet c cacheKey (p, now)
          | none => c
        { value := price, networkCalls := 1, cache := c', logged := false }

/-! ### `steam-parser.ts` : inventory fetching and case filtering -/

/-- One entry of the response's `assets` collection. -/
structure Asset where
  assetid : String
  classid : String
  instanceid : String
  amount : String
deriving DecidableEq

/-- One entry of the response's `descriptions` collection.  Absent
string fields are the empty string (falsy, like JS `undefined`, under
every use below). -/
structure Desc where
  classid : String
  instanceid : String
  name : String
  market_hash_name : String
  icon_url : String
deriving DecidableEq

/-- `CASE_IDENTIFIERS` (lines 9-11). -/
def CASE_IDENTIFIERS : List String :=
  ["Case", "Weapon Case", "Container", "eSports Case", "Operation"]

/-- `item.name || item.market_hash_name || ''` (line 18). -/
def effectiveName (d : Desc) : String :=
  if d.name ≠ "" then d.name
  else if d.market_hash_name ≠ "" then d.market_hash_name
  else ""

/-- `isCase` (lines 17-22). -/
def isCase (d : Desc) : Bool :=
  let name := effectiveName d
  CASE_IDENTIFIERS.any (fun identifier =>
    strIncludes name identifier && !strIncludes name "Key" &&
      !strIncludes name "Graffiti")

/-- JS `parseInt(s, 10)`: optional sign then the longest digit prefix;
`none` = `NaN` when there is no digit. -/
def jsParseInt (l : List Char) : Option Int :=
  let (sign, l₁) :=
    match l with
    | '-' :: t => ((-1 : Int), t)
    | '+' :: t => ((1 : Int), t)
    | _ => ((1 : Int), l)
  let ds := l₁.takeWhile Char.isDigit
  if ds.isEmpty then none else some (sign * (valDigitsBE ds : Int))

/-- `parseInt(asset.amount, 10) || 1` (line 229): `NaN` and `0` are
falsy. -/
def parseAmount (amount : String) : Int :=
  match jsParseInt amount.data with
  | none => 1
  | some 0 => 1
  | some k => k

/-- The domain record pushed for each retained asset (`InsertCase`,
lines 220-231).  `price` is left unset. -/
structure InsertCase where
  accountId : Int
  name : String
  appId : String
  assetId : String
  classId : String
  instanceId : String
  marketHashName : String
  imageUrl : String
  quantity : Int
  price : Option ℚ
deriving DecidableEq

/-- `` `${classid}_${instanceid}` `` (lines 210, 216). -/
def joinKey (classid instanceid : String) : String :=
  classid ++ "_" ++ instanceid

/-- The description lookup built by `forEach`/`Map.set` (lines 209-212):
for a duplicated key the last entry wins, hence `find?` on the reversed
list. -/
def lookupDesc (descriptions : List Desc) (key : String) : Option Desc :=
  descriptions.reverse.find? (fun d => joinKey d.classid d.instanceid = key)

/-- The asset-processing loop (lines 215-233). -/
def processAssets (accountId : Int) (appId : String) (assets : List Asset)
    (descriptions : List Desc) : List InsertCase :=
  assets.filterMap (fun asset =>
    match lookupDesc descriptions (joinKey asset.classid asset.instanceid) with
    | none => none
    | some desc =>
      if isCase desc then
        some { accountId := accountId
               name := desc.name
               appId := appId
               assetId := asset.assetid
               classId := asset.classid
               instanceId := asset.instanceid
               marketHashName := desc.market_hash_name
               imageUrl := "https://steamcommunity-a.akamaihd.net/economy/image/"
                 ++ desc.icon_url ++ "/128x128"
               quantity := parseAmount asset.amount
               price := none }
      else none)

/-- Parsed body of an inventory response; `none` collections model an
absent/falsy field (an empty array is truthy and is kept as
`some []`). -/
structure InvBody where
  success : Bool
  assets : Option (List Asset)
  descriptions : Option (List Desc)

/-- Outcome of the inventory network call; `statusText` is the HTTP
reason phrase interpolated into the non-403 error message. -/
inductive FetchOutcome where
  | netErr (msg : String)
  | resp (status : Nat) (statusText : String) (body : InvBody)

/-- `INVENTORY_CACHE_DURATION = 2 * 60 * 60 * 1000`. -/
def INVENTORY_CACHE_DURATION : Int := 7200000

/-- One entry of the `inventoryCache` map. -/
structure InvCacheEntry where
  data : List InsertCase
  timestamp : Int

/-- The `try`-block body of `SteamParser.getInventory` (lines 180-241):
everything that can `throw`.  The inventory URL itself is not modelled;
the upstream response is the oracle `outcome`. -/
def getInventoryBody (accountId : Int) (steamId appId : String)
    (outcome : FetchOutcome) : Except String (List InsertCase) := do
  let _steamID64 ← convertSteamIDToSteamID64 steamId
  match outcome with
  | .netErr m => throw m
  | .resp status statusText body =>
    if !httpOk status then
      if status = 403 then
        throw "Inventory is private or unavailable"
      else
        throw ("HTTP error " ++ natToString status ++ ": " ++ statusText)
    else if !body.success || body.assets = none ||
        body.descriptions = none then
      throw "Failed to parse inventory data"
    else
      pure (processAssets accountId appId (body.assets.getD [])
        (body.descriptions.getD []))

/-- What one `getInventory` call does, beyond its return value. -/
structure GetInvResult where
  result : List InsertCase
  loggedError : Option String
  markedPrivate : Bool
  cacheWrite : Option (List InsertCase)
deriving DecidableEq

/-- `SteamParser.getInventory` (lines 170-257).  A fresh cache entry is
returned with `accountId` rewritten (line 177).  Otherwise the body
runs; the `catch` (lines 242-255) logs the error, marks the account
private exactly when the message contains `'private'`, and returns `[]`
— no exception escapes to the caller. -/
def getInventory (cached : Option InvCacheEntry) (now : Int)
    (accountId : Int) (steamId appId : String) (outcome : FetchOutcome) :
    GetInvResult :=
  match cached with
  | some entry =>
    if now - entry.timestamp < INVENTORY_CACHE_DURATION then
      { result := entry.data.map (fun item => { item with accountId := accountId })
        loggedError := none
        markedPrivate := false
        cacheWrite := none }
    else getInventoryGo accountId steamId appId outcome
  | none => getInventoryGo accountId steamId appId outcome
where
  getInventoryGo (accountId : Int) (steamId appId : String)
      (outcome : FetchOutcome) : GetInvResult :=
    match getInventoryBody accountId steamId appId outcome with
    | .ok cases =>
      { result := cases
        loggedError := none
        markedPrivate := false
        cacheWrite := some cases }
    | .error m =>
      { result := []
        loggedError := some m
        markedPrivate := strIncludes m "private"
        cacheWrite := none }

/-! ### Decomposition of decimal renderings

To evaluate the regular-expression tests on `natToString n` for a
symbolic `n`, we split the digit string of `h * 10^k + l` (`l < 10^k`,
`0 < h`) into the digits of `h` followed by `k` zero-padded digits of
`l`. -/

/-- `k` little-endian digits of `l` (zero-padded). -/
def padRev : Nat → Nat → List Nat
  | 0, _ => []
  | k + 1, l => l % 10 :: padRev k (l / 10)

theorem padRev_length (k l : Nat) : (padRev k l).length = k := by
  induction k generalizing l with
  | zero => rfl
  | succ k ih => simp [padRev, ih]

theorem padRev_lt_ten {k l d : Nat} (h : d ∈ padRev k l) : d < 10 := by
  induction k generalizing l with
  | zero => simp [padRev] at h
  | succ k ih =>
    simp only [padRev, List.mem_cons] at h
    rcases h with h | h
    · omega
    · exact ih h

theorem natDigitsRev_decompose {k h l fuel : Nat} (hh : 0 < h)
    (hl : l < 10 ^ k) (hfuel : h * 10 ^ k + l ≤ fuel) :
    natDigitsRev fuel (h * 10 ^ k + l) = padRev k l ++ natDigitsRev h h := by
  induction k generalizing l fuel with
  | zero =>
    simp only [pow_zero, mul_one] at hl hfuel ⊢
    interval_cases l
    simp only [Nat.add_zero, padRev, List.nil_append]
    exact natDigitsRev_fuel (by omega) le_rfl
  | succ k ih =>
    have hP : 0 < 10 ^ k := Nat.pos_pow_of_pos k (by omega)
    have hn0 : h * 10 ^ (k + 1) + l ≠ 0 := by positivity
    have hmul : 0 < h * 10 ^ (k + 1) :=
      Nat.mul_pos hh (Nat.pos_pow_of_pos _ (by omega))
    cases fuel with
    | zero => omega
    | succ fuel =>
      have hpow : 10 ^ (k + 1) = 10 ^ k * 10 := by ring
      have hmod : (h * 10 ^ (k + 1) + l) % 10 = l % 10 := by
        rw [hpow, ← Nat.mul_assoc]
        omega
      have hdivq : (h * 10 ^ (k + 1) + l) / 10 = h * 10 ^ k + l / 10 := by
        rw [hpow, ← Nat.mul_assoc]
        omega
      simp only [natDigitsRev, hn0, if_false, hmod, hdivq, padRev,
        List.cons_append]
      congr 1
      have hl' : l / 10 < 10 ^ k := by
        rw [hpow] at hl
        omega
      refine ih hl' ?_
      have h1 : 1 ≤ h * 10 ^ k := Nat.one_le_iff_ne_zero.mpr (by positivity)
      rw [hpow, ← Nat.mul_assoc] at hfuel
      have hldiv : l / 10 ≤ l := Nat.div_le_self _ _
      omega

/-- The character string of `h * 10^k + l` is the digit string of `h`
followed by `k` zero-padded digit characters of `l`. -/
theorem natToString_decompose {k h l : Nat} (hh : 0 < h) (hl : l < 10 ^ k) :
    (natToString (h * 10 ^ k + l)).data =
      (natDigitsRev h h).reverse.map natToString.digitToChar ++
        (padRev k l).reverse.map natToString.digitToChar := by
  have hn0 : h * 10 ^ k + l ≠ 0 := by positivity
  simp only [natToString, hn0, if_false]
  change ((natDigitsRev (h * 10 ^ k + l) (h * 10 ^ k + l)).reverse.map
      natToString.digitToChar) = _
  rw [natDigitsRev_decompose hh hl le_rfl, List.reverse_append,
    List.map_append]

/-! ### Evaluation lemmas for the SteamID conversions -/

theorem fdiv_ofNat_two (m : Nat) :
    Int.fdiv (m : Int) 2 = ((m / 2 : Nat) : Int) := by
  cases m <;> rfl

/-- The decimal string of `76561197960265728 + z*2 + y` (the SteamID64
of `STEAM_1:y:z`) for an in-range account number: seven leading digits
`7656119` followed by ten digit characters. -/
theorem id64_string_data (y z : Nat) (hy : y ≤ 1) (hz : z ≤ 1019867135) :
    (natToString (76561197960265728 + z * 2 + y)).data =
      ['7', '6', '5', '6', '1', '1', '9'] ++
        (padRev 10 (7960265728 + z * 2 + y)).reverse.map
          natToString.digitToChar := by
  have heq : 76561197960265728 + z * 2 + y =
      7656119 * 10 ^ 10 + (7960265728 + z * 2 + y) := by norm_num; omega
  have hl : 7960265728 + z * 2 + y < 10 ^ 10 := by norm_num; omega
  rw [heq, natToString_decompose (by norm_num) hl]
  congr 1

theorem id64Match_string (y z : Nat) (hy : y ≤ 1) (hz : z ≤ 1019867135) :
    id64Match (natToString (76561197960265728 + z * 2 + y)) = true := by
  unfold id64Match
  rw [id64_string_data y z hy hz]
  simp only [List.cons_append, List.nil_append, id64MatchL,
    Bool.and_eq_true, decide_eq_true_eq]
  refine ⟨by simp [padRev_length], ?_⟩
  simp only [List.all_eq_true, List.mem_map, List.mem_reverse]
  rintro c ⟨d, hd, rfl⟩
  exact isDigit_digitToChar (padRev_lt_ten hd)

theorem legacyMatch_id64_false (y z : Nat) (hy : y ≤ 1)
    (hz : z ≤ 1019867135) :
    legacyMatch (natToString (76561197960265728 + z * 2 + y)) = false := by
  unfold legacyMatch
  rw [id64_string_data y z hy hz]
  simp [legacyMatchL]

/-- Evaluation of `convertSteamID64ToSteamID` on the rendered SteamID64
of `STEAM_1:y:z` for an in-range account number (so that the low 32
bits stay below `2^31` and the signed shift is harmless). -/
theorem convert64_string (y z : Nat) (hy : y ≤ 1) (hz : z ≤ 1019867135) :
    convertSteamID64ToSteamID (natToString (76561197960265728 + z * 2 + y)) =
      "STEAM_1:" ++ natToString y ++ ":" ++ natToString z := by
  unfold convertSteamID64ToSteamID
  rw [valDigitsBE_natToString]
  have h1 : (76561197960265728 + z * 2 + y) / 72057594037927936 % 256 = 1 := by
    omega
  have h2 : (76561197960265728 + z * 2 + y) % 4294967296 = z * 2 + y := by
    omega
  have h3 : z * 2 + y < 2147483648 := by omega
  have h4 : (z * 2 + y) % 2 = y := by omega
  have h5 : (z * 2 + y) / 2 = z := by omega
  simp only [h1, h2, toInt32, h3, if_true, h4, fdiv_ofNat_two, h5]
  have h6 : ¬((z : Int) < 0) := by omega
  simp only [intToString, h6, if_false, Int.natAbs_ofNat]
  apply String.ext
  have hns1 : natToString 1 = "1" := rfl
  simp [hns1, String.data_append]

/-- Evaluation of `convertSteamIDToSteamID64` on the canonical legacy
string `STEAM_1:y:z`. -/
theorem convertTo64_steam1 (y z : Nat) (hy : y ≤ 1) :
    convertSteamIDToSteamID64
        ("STEAM_1:" ++ natToString y ++ ":" ++ natToString z) =
      .ok (natToString (76561197960265728 + z * 2 + y)) := by
  have hz' : ¬(natToString z).data.isEmpty := by
    simp [List.isEmpty_iff, natToString_ne_empty z]
  have hzd : (natToString z).data.all Char.isDigit = true := by
    simp only [List.all_eq_true]
    exact natToString_all_digits z
  have hy0 : (natToString 0).data = ['0'] := rfl
  have hy1 : (natToString 1).data = ['1'] := rfl
  have hs1 : ("STEAM_1:" : String).data =
      ['S', 'T', 'E', 'A', 'M', '_', '1', ':'] := rfl
  have hcolon : (":" : String).data = [':'] := rfl
  interval_cases y <;>
  · simp only [convertSteamIDToSteamID64, String.data_append, hy0, hy1,
      hs1, hcolon, List.cons_append, List.nil_append, List.singleton_append]
    simp only [steamParts, List.takeWhile, List.dropWhile,
      show ('1' : Char).isDigit = true from rfl,
      show ('0' : Char).isDigit = true from rfl,
      show (':' : Char).isDigit = false from rfl]
    norm_num [natToString_ne_empty z]
    rw [if_pos (natToString_all_digits z)]
    simp [valDigitsBE_natToString]

/-! ### Claim C1 -/

/-- C1 (counterexample): the legacy/64-bit round trip is NOT a bijection
over the whole legacy space.  `STEAM_0:0:1` (universe digit `0`, allowed
by `/^STEAM_[0-5]:[01]:\d+$/`) converts to `76561197960265730`, but
resolving that 64-bit form yields `STEAM_1:0:1`: the additive constant
`76561197960265728` used by `convertSteamIDToSteamID64` discards the
universe digit, and `convertSteamID64ToSteamID` reads universe `1` back
out of it. -/
theorem C1_counterexample :
    convertSteamIDToSteamID64 "STEAM_0:0:1" = .ok "76561197960265730" ∧
    getSteamId none (.netErr "") "76561197960265730" = some "STEAM_1:0:1" ∧
    some "STEAM_1:0:1" ≠ some "STEAM_0:0:1" :=
  ⟨rfl, by decide, by decide⟩

/-- C1 (amended): the round trip `resolve (convertToNumeric x) = x` holds
for every canonical legacy identifier with universe digit `1` and account
number at most `1019867135` (so that the 64-bit form still matches
`/^7656119\d{10}$/` and its low 32 bits stay below `2^31`); universe
digits other than `1` are collapsed to `1`, and the round trip is
independent of the settings and of the vanity-resolution oracle. -/
theorem C1_roundtrip_universe1 (y z : Nat) (st : Option Settings)
    (v : VanityResult) (hy : y ≤ 1) (hz : z ≤ 1019867135) :
    convertSteamIDToSteamID64
        ("STEAM_1:" ++ natToString y ++ ":" ++ natToString z) =
      .ok (natToString (76561197960265728 + z * 2 + y)) ∧
    getSteamId st v (natToString (76561197960265728 + z * 2 + y)) =
      some ("STEAM_1:" ++ natToString y ++ ":" ++ natToString z) := by
  refine ⟨convertTo64_steam1 y z hy, ?_⟩
  unfold getSteamId getSteamIdE
  rw [legacyMatch_id64_false y z hy hz, id64Match_string y z hy hz]
  simp only [Bool.false_eq_true, if_false, if_true]
  rw [convert64_string y z hy hz]
  rfl

/-- Witness for C1 at `y = 1`, `z = 12345`. -/
theorem C1_roundtrip_universe1_witness :
    convertSteamIDToSteamID64
        ("STEAM_1:" ++ natToString 1 ++ ":" ++ natToString 12345) =
      .ok (natToString (76561197960265728 + 12345 * 2 + 1)) ∧
    getSteamId none (.netErr "") (natToString (76561197960265728 + 12345 * 2 + 1)) =
      some ("STEAM_1:" ++ natToString 1 ++ ":" ++ natToString 12345) :=
  C1_roundtrip_universe1 1 12345 none (.netErr "") (by decide) (by decide)

/-! ### Claim C2 -/

/-- C2: the 64-bit round trip does not preserve numeric equality when
the low-32-bit account portion reaches `2^31`.  The input
`76561195812782080 = 76561197960265728 - 2^31` matches the code's own
64-bit pattern `/^7656119\d{10}$/`, its low 32 bits are exactly `2^31`,
and `accountIdLow >> 1` (a signed 32-bit shift) produces the negative
account number `-1073741824`; `convertSteamIDToSteamID64` then rejects
`STEAM_1:0:-1073741824` (`Invalid SteamID format`), so
`convertToNumeric (resolve n)` fails instead of returning `n`.  The spec
requires unsigned 64-bit arithmetic throughout, making this a slip in
the code. -/
theorem C2_signed_shift_failure :
    id64Match "76561195812782080" = true ∧
    getSteamId none (.netErr "") "76561195812782080" =
      some "STEAM_1:0:-1073741824" ∧
    (convertSteamIDToSteamID64 "STEAM_1:0:-1073741824").toOption = none :=
  ⟨by decide, by decide, by decide⟩

/-! ### Claim C10 -/

/-- C10: `getSteamId` is total at its public interface: the embedded
`try`/`catch` yields `Except.ok` for every input (no exception reaches
the caller), and a missing API key, a transport/lookup failure, and an
unresolvable vanity name (`success ≠ 1`) each collapse to the `null`
result. -/
theorem C10_getSteamId_total (st : Option Settings) (v : VanityResult)
    (id : String) :
    getSteamIdE st v id = .ok (getSteamId st v id) ∧
    (legacyMatch id = false → id64Match id = false →
      (settingsApiKey st = none → getSteamId st v id = none) ∧
      (∀ m, v = .netErr m → getSteamId st v id = none) ∧
      (∀ succ sid msg, succ ≠ 1 → v = .resp succ sid msg →
        getSteamId st v id = none)) := by
  have hv : legacyMatch id = false → id64Match id = false →
      getSteamIdE st v id =
        .ok (match vanityBody st v with
             | .ok s => some s
             | .error _ => none) := by
    intro h1 h2
    unfold getSteamIdE Except.tryCatch
    simp only [h1, h2, Bool.false_eq_true, if_false]
    cases vanityBody st v <;> rfl
  constructor
  · by_cases h1 : legacyMatch id
    · unfold getSteamId getSteamIdE
      simp only [h1, if_true]
      rfl
    · by_cases h2 : id64Match id
      · unfold getSteamId getSteamIdE
        simp only [h1, h2, if_true, if_false, Bool.false_eq_true]
        rfl
      · unfold getSteamId
        rw [hv (by simpa using h1) (by simpa using h2)]
  · intro h1 h2
    have hg : getSteamId st v id =
        (match vanityBody st v with
         | .ok s => some s
         | .error _ => none) := by
      unfold getSteamId
      rw [hv h1 h2]
    refine ⟨?_, ?_, ?_⟩
    · intro hkey
      rw [hg]
      unfold vanityBody
      rw [hkey]
    · rintro m rfl
      rw [hg]
      unfold vanityBody
      cases hk : settingsApiKey st with
      | none => rfl
      | some k => rfl
    · rintro succ sid msg hsucc rfl
      rw [hg]
      unfold vanityBody
      cases hk : settingsApiKey st with
      | none => rfl
      | some k => simp [hsucc]

/-- Witness for C10: a vanity-name identifier with no configured API key
resolves to `null` and no exception escapes. -/
theorem C10_getSteamId_total_witness :
    getSteamIdE none (.netErr "connection reset") "gabelogannewell" =
      .ok (getSteamId none (.netErr "connection reset") "gabelogannewell") ∧
    getSteamId none (.netErr "connection reset") "gabelogannewell" = none :=
  ⟨(C10_getSteamId_total none (.netErr "connection reset")
      "gabelogannewell").1,
   ((C10_getSteamId_total none (.netErr "connection reset")
      "gabelogannewell").2 (by decide) (by decide)).1 rfl⟩

/-! ### Claim C3 -/

/-- C3: with no fresh cache entry and a parseable canonical id, an HTTP
403 from the inventory endpoint makes `getInventory` return the empty
sequence, log the `InventoryPrivate` condition
(`'Inventory is private or unavailable'`), and mark the owning account
private; and for every outcome whose body throws (any non-success
status, transport failure, malformed body), the call still returns a
`GetInvResult` with an empty list — no exception propagates. -/
theorem C3_private_403 (cached : Option InvCacheEntry) (now : Int)
    (accountId : Int) (steamId appId statusText : String) (body : InvBody)
    (hmiss : ∀ e, cached = some e →
      ¬(now - e.timestamp < INVENTORY_CACHE_DURATION))
    (hid : ∃ s64, convertSteamIDToSteamID64 steamId = .ok s64) :
    getInventory cached now accountId steamId appId
        (.resp 403 statusText body) =
      { result := []
        loggedError := some "Inventory is private or unavailable"
        markedPrivate := true
        cacheWrite := none } ∧
    (∀ (outcome : FetchOutcome) (m : String),
      getInventoryBody accountId steamId appId outcome = .error m →
      getInventory cached now accountId steamId appId outcome =
        { result := []
          loggedError := some m
          markedPrivate := strIncludes m "private"
          cacheWrite := none }) := by
  obtain ⟨s64, hs64⟩ := hid
  have hgo : ∀ (outcome : FetchOutcome) (m : String),
      getInventoryBody accountId steamId appId outcome = .error m →
      getInventory cached now accountId steamId appId outcome =
        { result := []
          loggedError := some m
          markedPrivate := strIncludes m "private"
          cacheWrite := none } := by
    intro outcome m hbody
    unfold getInventory
    have hgo' : getInventory.getInventoryGo accountId steamId appId outcome =
        { result := []
          loggedError := some m
          markedPrivate := strIncludes m "private"
          cacheWrite := none } := by
      unfold getInventory.getInventoryGo
      rw [hbody]
    cases cached with
    | none => exact hgo'
    | some e =>
      simp only [hmiss e rfl, if_false, hgo']
  have h403 : getInventoryBody accountId steamId appId
      (.resp 403 statusText body) =
        .error "Inventory is private or unavailable" := by
    unfold getInventoryBody
    rw [hs64]
    rfl
  refine ⟨?_, hgo⟩
  have := hgo (.resp 403 statusText body) _ h403
  rw [this]
  decide

/-- Witness for C3: an empty cache, the id `STEAM_1:0:1`, and a 403
response. -/
theorem C3_private_403_witness :
    getInventory none 0 7 "STEAM_1:0:1" "730"
        (.resp 403 "Forbidden" ⟨true, none, none⟩) =
      { result := []
        loggedError := some "Inventory is private or unavailable"
        markedPrivate := true
        cacheWrite := none } :=
  (C3_private_403 none 0 7 "STEAM_1:0:1" "730" "Forbidden" ⟨true, none, none⟩
    (by intro e he; cases he)
    ⟨"76561197960265730", rfl⟩).1

/-! ### Claim C4 -/

/-- C4 (counterexample): the inventory quota is a fixed-window counter,
not a rolling one, so a window of length `W = 30 min` can contain more
than `N = 5` dispatched inventory requests.  A manager constructed at
time `0`, with a sequential burst of 8 inventory requests starting at
`t = 1 790 000` (10 s before the first period boundary) and minimum
spacing 10 000 ms (the smallest value the source can draw:
`max(8000, 2000*4) + 2000`), dispatches all 8 requests inside the
window `[1 790 000, 1 860 000]` of length 70 s ≤ W: the elapse-triggered
reset at the fourth request clears the counter mid-burst. -/
theorem C4_counterexample :
    ((runInv ⟨0, 0, 0⟩ 1790000 (List.replicate 8 10000)).map
        (fun r => r.1)) =
      [1790000, 1800000, 1810000, 1820000, 1830000, 1840000, 1850000,
        1860000] ∧
    ((runInv ⟨0, 0, 0⟩ 1790000 (List.replicate 8 10000)).map
        (fun r => r.1)).countP
        (fun t => 1790000 ≤ t && t ≤ 1790000 + INVENTORY_PERIOD_MS) = 8 ∧
    8 > maxInventoryRequestsPer30Min :=
  ⟨by decide, by decide, by decide⟩

/-- C4 (amended): the quota is enforced per fixed counter window: every
dispatched inventory request leaves the window counter at most `N = 5`,
and when the counter has reached `N` within a live window the next
request is suspended until the window start plus `W = 30 min` plus the
60 s safety buffer, after which the counter restarts at `1`. -/
theorem C4_fixed_window_quota :
    (∀ (s : RMState) (now : Int) (ds : List Int) r,
      r ∈ runInv s now ds → r.2.1 ≤ maxInventoryRequestsPer30Min) ∧
    (∀ (s : RMState) (now d : Int),
      now - s.periodStartTime ≤ INVENTORY_PERIOD_MS →
      s.inventoryRequestsThisPeriod ≥ maxInventoryRequestsPer30Min →
      s.periodStartTime + INVENTORY_PERIOD_MS + 60000 ≤
          (dispatchInv s now d).1 ∧
        (dispatchInv s now d).2.inventoryRequestsThisPeriod = 1) := by
  constructor
  · intro s now ds r hr
    induction ds generalizing s now with
    | nil => simp [runInv] at hr
    | cons d ds ih =>
      simp only [runInv, List.mem_cons] at hr
      rcases hr with hr | hr
      · subst hr
        simp only [dispatchInv, enforceRateLimitInv,
          maxInventoryRequestsPer30Min]
        split <;> rename_i hreset
        all_goals split <;> rename_i hquota
        all_goals simp_all [maxInventoryRequestsPer30Min]
        all_goals omega
      · exact ih _ _ hr
  · intro s now d hlive hfull
    have hnr : ¬(now - s.periodStartTime > INVENTORY_PERIOD_MS) := by omega
    constructor
    · simp only [dispatchInv, enforceRateLimitInv, hnr, if_false,
        if_pos hfull]
      split <;> omega
    · simp only [dispatchInv, enforceRateLimitInv, hnr, if_false,
        if_pos hfull]

/-- Witness for C4 (amended) at the counterexample trace and a saturated
state. -/
theorem C4_fixed_window_quota_witness :
    ((1790000, 1, (0 : Int)) ∈ runInv ⟨0, 0, 0⟩ 1790000
        (List.replicate 8 10000) ∧
      (1790000, 1, (0 : Int)).2.1 ≤ maxInventoryRequestsPer30Min) ∧
    ((0 : Int) + INVENTORY_PERIOD_MS + 60000 ≤
        (dispatchInv ⟨0, 5, 0⟩ 1000 10000).1 ∧
      (dispatchInv ⟨0, 5, 0⟩ 1000 10000).2.inventoryRequestsThisPeriod = 1) :=
  ⟨⟨by decide,
    C4_fixed_window_quota.1 ⟨0, 0, 0⟩ 1790000 (List.replicate 8 10000)
      (1790000, 1, (0 : Int)) (by decide)⟩,
   C4_fixed_window_quota.2 ⟨0, 5, 0⟩ 1000 10000 (by decide) (by decide)⟩

/-! ### Claim C5 -/

/-- C5: retries are keyed by the URL path (two market URLs differing
only in their query strings share a key), and under persistent 429
responses the call waits `min(300000, 2^a * 60000)` before the attempt
numbered `a + 1` — concretely 60 s, 120 s then 240 s — and, once the
per-path attempt count exceeds `MAX_RETRY_ATTEMPTS = 3`, fails with the
rate-limit error having cleared the counter, so a subsequent call for
the path starts from attempt 0. -/
theorem C5_backoff_429 (statuses : Nat → Nat)
    (h : ∀ i, i < 4 → statuses i = 429) :
    urlPathname
        "https://steamcommunity.com/market/priceoverview/?appid=730&currency=1&market_hash_name=A" =
      urlPathname
        "https://steamcommunity.com/market/priceoverview/?appid=730&currency=3&market_hash_name=B" ∧
    makeRequest429 statuses 0 =
      ([min 300000 (2 ^ 0 * 60000), min 300000 (2 ^ 1 * 60000),
        min 300000 (2 ^ 2 * 60000)],
       .error rateLimitErrorMsg, 0) ∧
    (∀ statuses' : Nat → Nat,
      makeRequest429 statuses' (makeRequest429 statuses 0).2.2 =
        makeRequest429 statuses' 0) := by
  have h0 := h 0 (by omega)
  have h1 := h 1 (by omega)
  have h2 := h 2 (by omega)
  have h3 := h 3 (by omega)
  have hrun : makeRequest429 statuses 0 =
      ([min 300000 (2 ^ 0 * 60000), min 300000 (2 ^ 1 * 60000),
        min 300000 (2 ^ 2 * 60000)],
       .error rateLimitErrorMsg, 0) := by
    simp [makeRequest429, makeRequestGo, h0, h1, h2, h3,
      MAX_RETRY_ATTEMPTS]
  refine ⟨by decide, hrun, ?_⟩
  intro statuses'
  rw [hrun]

/-- Witness for C5 at the constant-429 status stream. -/
theorem C5_backoff_429_witness :
    urlPathname
        "https://steamcommunity.com/market/priceoverview/?appid=730&currency=1&market_hash_name=A" =
      urlPathname
        "https://steamcommunity.com/market/priceoverview/?appid=730&currency=3&market_hash_name=B" ∧
    makeRequest429 (fun _ => 429) 0 =
      ([min 300000 (2 ^ 0 * 60000), min 300000 (2 ^ 1 * 60000),
        min 300000 (2 ^ 2 * 60000)],
       .error rateLimitErrorMsg, 0) ∧
    (∀ statuses' : Nat → Nat,
      makeRequest429 statuses' (makeRequest429 (fun _ => 429) 0).2.2 =
        makeRequest429 statuses' 0) :=
  C5_backoff_429 (fun _ => 429) (fun _ _ => rfl)

/-! ### Claim C6 -/

/-- C6: the two locale renderings of the same amount parse to the
identical numeric result `1234.56`, and a lone comma is treated as the
decimal separator. -/
theorem C6_locale_price_parse :
    parsePriceString "$1,234.56" = parsePriceString "1.234,56€" ∧
    parsePriceString "$1,234.56" = some ((123456 : ℚ) / 100) ∧
    parsePriceString "7,5" = some ((75 : ℚ) / 10) := by
  have h1 : parsePriceNormalize "$1,234.56" =
      ['1', '2', '3', '4', '.', '5', '6'] := by decide
  have h2 : parsePriceNormalize "1.234,56€" =
      ['1', '2', '3', '4', '.', '5', '6'] := by decide
  have h3 : parsePriceNormalize "7,5" = ['7', '.', '5'] := by decide
  have h4 : jsParseFloat ['1', '2', '3', '4', '.', '5', '6'] =
      some ((123456 : ℚ) / 100) := by
    show some ((1 : ℚ) * ((valDigitsBE ['1', '2', '3', '4'] : ℚ) +
        (valDigitsBE ['5', '6'] : ℚ) /
          ((10 ^ (['5', '6'] : List Char).length : Nat) : ℚ))) =
      some ((123456 : ℚ) / 100)
    norm_num [valDigitsBE, show charToDigit '1' = 1 from rfl,
      show charToDigit '2' = 2 from rfl, show charToDigit '3' = 3 from rfl,
      show charToDigit '4' = 4 from rfl, show charToDigit '5' = 5 from rfl,
      show charToDigit '6' = 6 from rfl]
  have h5 : jsParseFloat ['7', '.', '5'] = some ((75 : ℚ) / 10) := by
    show some ((1 : ℚ) * ((valDigitsBE ['7'] : ℚ) +
        (valDigitsBE ['5'] : ℚ) /
          ((10 ^ (['5'] : List Char).length : Nat) : ℚ))) =
      some ((75 : ℚ) / 10)
    norm_num [valDigitsBE, show charToDigit '7' = 7 from rfl,
      show charToDigit '5' = 5 from rfl]
  unfold parsePriceString
  rw [h1, h2, h3, h4, h5]
  refine ⟨rfl, rfl, rfl⟩

/-! ### Claim C7 -/

/-- The retention condition exactly as the claim states it: the
effective name contains one of `"Case"`, `"Container"`, `"Operation"`,
`"eSports Case"` and contains neither `"Key"` nor `"Graffiti"`. -/
def specContainerCondition (d : Desc) : Bool :=
  let name := effectiveName d
  (["Case", "Container", "Operation", "eSports Case"].any
      (fun identifier => strIncludes name identifier)) &&
    !strIncludes name "Key" && !strIncludes name "Graffiti"

/-- C7: the three-asset inventory keeps exactly the `Chroma 3 Case`
item, and the source's `isCase` filter agrees with the claim's
condition on every description (the source's extra identifier
`"Weapon Case"` is absorbed by `"Case"`). -/
theorem C7_case_filter :
    processAssets 7 "730"
        [⟨"a1", "100", "0", "1"⟩, ⟨"a2", "101", "0", "1"⟩,
          ⟨"a3", "102", "0", "1"⟩]
        [⟨"100", "0", "Chroma 3 Case", "Chroma 3 Case", "i1"⟩,
          ⟨"101", "0", "Case Key", "Case Key", "i2"⟩,
          ⟨"102", "0", "Sticker | Crowbar", "Sticker | Crowbar", "i3"⟩] =
      [{ accountId := 7
         name := "Chroma 3 Case"
         appId := "730"
         assetId := "a1"
         classId := "100"
         instanceId := "0"
         marketHashName := "Chroma 3 Case"
         imageUrl := "https://steamcommunity-a.akamaihd.net/economy/image/i1/128x128"
         quantity := 1
         price := none }] ∧
    (∀ d : Desc, isCase d = specContainerCondition d) := by
  constructor
  · decide
  · intro d
    unfold isCase specContainerCondition CASE_IDENTIFIERS
    simp only [List.any_cons, List.any_nil, Bool.or_false]
    generalize effectiveName d = n
    have hWC : strIncludes n "Weapon Case" = true →
        strIncludes n "Case" = true :=
      fun h => strIncludes_trans h (by decide)
    have hES : strIncludes n "eSports Case" = true →
        strIncludes n "Case" = true :=
      fun h => strIncludes_trans h (by decide)
    rcases Bool.dichotomy (strIncludes n "Case") with h1 | h1 <;>
    rcases Bool.dichotomy (strIncludes n "Weapon Case") with h2 | h2 <;>
    rcases Bool.dichotomy (strIncludes n "Container") with h3 | h3 <;>
    rcases Bool.dichotomy (strIncludes n "eSports Case") with h4 | h4 <;>
    rcases Bool.dichotomy (strIncludes n "Operation") with h5 | h5 <;>
    rcases Bool.dichotomy (strIncludes n "Key") with h6 | h6 <;>
    rcases Bool.dichotomy (strIncludes n "Graffiti") with h7 | h7 <;>
    simp_all

/-! ### Claim C8 -/

theorem miss_networkCalls (c : PriceCache) (t : Int) (key : String)
    (o : PriceOutcome) :
    (getItemPrice.getItemPriceMiss c t key o).networkCalls = 1 := by
  unfold getItemPrice.getItemPriceMiss
  cases o with
  | netErr m => rfl
  | resp status body =>
    by_cases hok : httpOk status <;>
      by_cases hs : body.success <;>
        simp [hok, hs] <;> split <;> rfl

theorem miss_value_some (c : PriceCache) (t : Int) (key : String)
    (o : PriceOutcome) (v : JSNum)
    (h : (getItemPrice.getItemPriceMiss c t key o).value = some v) :
    getItemPrice.getItemPriceMiss c t key o =
      { value := some v, networkCalls := 1,
        cache := cacheSet c key (v, t), logged := false } := by
  unfold getItemPrice.getItemPriceMiss at h ⊢
  cases o with
  | netErr m => simp at h
  | resp status body =>
    by_cases hok : httpOk status
    · by_cases hs : body.success
      · simp only [hok, hs, Bool.not_true, Bool.false_eq_true, if_false] at h ⊢
        by_cases hl : jsTruthyStr body.lowest_price
        · simp only [hl, if_true] at h ⊢
          obtain rfl : parsePriceString (body.lowest_price.getD "") = v :=
            Option.some_injective _ h
          rfl
        · by_cases hm : jsTruthyStr body.median_price
          · simp only [hl, hm, Bool.false_eq_true, if_false, if_true] at h ⊢
            obtain rfl : parsePriceString (body.median_price.getD "") = v :=
              Option.some_injective _ h
            rfl
          · simp [hl, hm] at h
      · simp [hok, hs] at h
    · simp [hok] at h

theorem miss_value_none (c : PriceCache) (t : Int) (key : String)
    (o : PriceOutcome)
    (h : (getItemPrice.getItemPriceMiss c t key o).value = none) :
    (getItemPrice.getItemPriceMiss c t key o).cache = c := by
  unfold getItemPrice.getItemPriceMiss at h ⊢
  cases o with
  | netErr m => rfl
  | resp status body =>
    by_cases hok : httpOk status
    · by_cases hs : body.success
      · simp only [hok, hs, Bool.not_true, Bool.false_eq_true, if_false] at h ⊢
        by_cases hl : jsTruthyStr body.lowest_price
        · simp [hl] at h
        · by_cases hm : jsTruthyStr body.median_price
          · simp [hl, hm] at h
          · simp [hl, hm]
      · simp [hok, hs]
    · simp [hok]

/-- A call whose cache lookup misses runs the miss path. -/
theorem getItemPrice_not_fresh (c : PriceCache) (t : Int)
    (appId name : String) (cur : Nat) (o : PriceOutcome)
    (h : (getItemPrice c t appId name cur o).networkCalls = 1) :
    getItemPrice c t appId name cur o =
      getItemPrice.getItemPriceMiss c t (priceKey appId name cur) o := by
  simp only [getItemPrice] at h ⊢
  cases hc : cacheGet c (priceKey appId name cur) with
  | none => simp [hc]
  | some pts =>
    obtain ⟨p, ts⟩ := pts
    simp only [hc] at h ⊢
    by_cases hf : t - ts < PRICE_CACHE_DURATION
    · simp only [if_pos hf] at h
      exact absurd h (by norm_num)
    · simp only [if_neg hf]

/-- C8 (amended): when the first `getItemPrice` call actually fetched
(`networkCalls = 1`) and returned a non-`null` price `v`, a second call
for the same `(appId, marketHashName, currency)` within the 24-hour
window returns the same `v` with zero network calls; but when the first
call returned `null` (and no entry for the key pre-existed), nothing is
cached and the second call fetches again. -/
theorem C8_second_call_cached (c : PriceCache) (t₁ t₂ : Int)
    (appId name : String) (cur : Nat) (o₁ o₂ : PriceOutcome) (v : JSNum)
    (h3 : t₂ - t₁ < PRICE_CACHE_DURATION) (h3' : 0 ≤ t₂ - t₁) :
    ((getItemPrice c t₁ appId name cur o₁).networkCalls = 1 →
      (getItemPrice c t₁ appId name cur o₁).value = some v →
      getItemPrice (getItemPrice c t₁ appId name cur o₁).cache t₂
          appId name cur o₂ =
        { value := some v, networkCalls := 0,
          cache := (getItemPrice c t₁ appId name cur o₁).cache,
          logged := false }) ∧
    (cacheGet c (priceKey appId name cur) = none →
      (getItemPrice c t₁ appId name cur o₁).value = none →
      (getItemPrice (getItemPrice c t₁ appId name cur o₁).cache t₂
          appId name cur o₂).networkCalls = 1) := by
  constructor
  · intro h1 h2
    have hm := getItemPrice_not_fresh c t₁ appId name cur o₁ h1
    rw [hm] at h2 ⊢
    rw [miss_value_some c t₁ (priceKey appId name cur) o₁ v h2]
    have hget : cacheGet
        (cacheSet c (priceKey appId name cur) (v, t₁))
        (priceKey appId name cur) = some (v, t₁) := by
      simp [cacheGet, cacheSet]
    simp only [getItemPrice, hget]
    rw [if_pos (by omega)]
  · intro hnone h2
    have h1 : (getItemPrice c t₁ appId name cur o₁).networkCalls = 1 := by
      simp only [getItemPrice, hnone]
      exact miss_networkCalls c t₁ (priceKey appId name cur) o₁
    have hm := getItemPrice_not_fresh c t₁ appId name cur o₁ h1
    rw [hm] at h2 ⊢
    rw [miss_value_none c t₁ (priceKey appId name cur) o₁ h2]
    simp only [getItemPrice, hnone]
    exact miss_networkCalls c t₂ (priceKey appId name cur) o₂

/-- C8 (counterexample to the claim as stated): when the first call
returns `null` (upstream `success: false`), no entry is cached and a
second call within the window issues another network request instead of
zero. -/
theorem C8_counterexample :
    (getItemPrice [] 0 "730" "Chroma 3 Case" 1
        (.resp 200 ⟨false, none, none⟩)).value = none ∧
    (getItemPrice [] 0 "730" "Chroma 3 Case" 1
        (.resp 200 ⟨false, none, none⟩)).networkCalls = 1 ∧
    (getItemPrice
        (getItemPrice [] 0 "730" "Chroma 3 Case" 1
          (.resp 200 ⟨false, none, none⟩)).cache
        1000 "730" "Chroma 3 Case" 1
        (.resp 200 ⟨false, none, none⟩)).networkCalls = 1 :=
  ⟨by decide, by decide, by decide⟩

/-- Witness for C8 (amended): a successful first fetch of `$1.50`
followed by a cache hit, and the null case refetches. -/
theorem C8_second_call_cached_witness :
    ((getItemPrice [] 0 "730" "W" 1
          (.resp 200 ⟨true, some "$1.50", none⟩)).networkCalls = 1 →
      (getItemPrice [] 0 "730" "W" 1
          (.resp 200 ⟨true, some "$1.50", none⟩)).value =
        some (parsePriceString "$1.50") →
      getItemPrice
          (getItemPrice [] 0 "730" "W" 1
            (.resp 200 ⟨true, some "$1.50", none⟩)).cache 1000 "730" "W" 1
          (.netErr "down") =
        { value := some (parsePriceString "$1.50"), networkCalls := 0,
          cache := (getItemPrice [] 0 "730" "W" 1
            (.resp 200 ⟨true, some "$1.50", none⟩)).cache,
          logged := false }) ∧
    (cacheGet [] (priceKey "730" "W" 1) = none →
      (getItemPrice [] 0 "730" "W" 1
          (.resp 200 ⟨true, some "$1.50", none⟩)).value = none →
      (getItemPrice
          (getItemPrice [] 0 "730" "W" 1
            (.resp 200 ⟨true, some "$1.50", none⟩)).cache 1000 "730" "W" 1
          (.netErr "down")).networkCalls = 1) :=
  C8_second_call_cached [] 0 1000 "730" "W" 1
    (.resp 200 ⟨true, some "$1.50", none⟩) (.netErr "down")
    (parsePriceString "$1.50") (by decide) (by decide)

/-! ### Claim C9 -/

theorem replaceFirstC_mem {l : List Char} {a b c : Char}
    (h : c ∈ replaceFirstC l a b) : c ∈ l ∨ c = b := by
  induction l with
  | nil => simp [replaceFirstC] at h
  | cons x t ih =>
    simp only [replaceFirstC] at h
    split at h
    · rcases List.mem_cons.mp h with h' | h'
      · right; exact h'
      · left; exact List.mem_cons_of_mem _ h'
    · rcases List.mem_cons.mp h with h' | h'
      · left; exact h' ▸ List.mem_cons_self _ _
      · rcases ih h' with h'' | h''
        · left; exact List.mem_cons_of_mem _ h''
        · right; exact h''

/-- Every character of a normalised price string is a digit, `'.'` or
`','` — in particular never a sign. -/
theorem parsePriceNormalize_mem {s : String} {c : Char}
    (h : c ∈ parsePriceNormalize s) :
    c.isDigit = true ∨ c = '.' ∨ c = ',' := by
  have base : ∀ x ∈ cleanPriceChars s,
      x.isDigit = true ∨ x = '.' ∨ x = ',' := by
    intro x hx
    unfold cleanPriceChars at hx
    have := (List.mem_filter.mp hx).2
    simp only [Bool.or_eq_true, decide_eq_true_eq] at this
    tauto
  simp only [parsePriceNormalize] at h
  split at h
  · split at h
    · rcases replaceFirstC_mem h with h' | h'
      · exact base _ (List.mem_filter.mp h').1
      · right; left; exact h'
    · exact base _ (List.mem_filter.mp h).1
  · split at h
    · rcases replaceFirstC_mem h with h' | h'
      · exact base _ h'
      · right; left; exact h'
    · exact base _ h

theorem jsSign_no_minus {l : List Char} (h : '-' ∉ l) :
    (jsSign l).1 = 1 ∧ 0 ≤ (jsSign l).1 := by
  have h1 : (jsSign l).1 = 1 := by
    cases l with
    | nil => rfl
    | cons c t =>
      have hc : ¬(c = '-') := fun hc => h (hc ▸ List.mem_cons_self _ _)
      simp only [jsSign, hc, if_false]
      split <;> rfl
  exact ⟨h1, by rw [h1]; norm_num⟩

theorem jsParseFloatMag_nonneg {sign : ℚ} {l₁ : List Char} {q : ℚ}
    (hs : 0 ≤ sign) (h : jsParseFloatMag sign l₁ = some q) : 0 ≤ q := by
  simp only [jsParseFloatMag] at h
  split at h
  · exact absurd h (by simp)
  · obtain rfl : sign * _ = q := Option.some_injective _ h
    positivity

/-- Parse results are never negative. -/
theorem parsePriceString_nonneg (s : String) (q : ℚ)
    (h : parsePriceString s = some q) : 0 ≤ q := by
  have hmem : '-' ∉ parsePriceNormalize s := by
    intro hm
    rcases parsePriceNormalize_mem hm with h1 | h1 | h1 <;> simp at h1
  unfold parsePriceString jsParseFloat at h
  exact jsParseFloatMag_nonneg (jsSign_no_minus hmem).2 h

/-- Every value a miss produces is `null` or a parse result. -/
theorem miss_value_shape (c : PriceCache) (t : Int) (key : String)
    (o : PriceOutcome) :
    (getItemPrice.getItemPriceMiss c t key o).value = none ∨
      ∃ s, (getItemPrice.getItemPriceMiss c t key o).value =
        some (parsePriceString s) := by
  unfold getItemPrice.getItemPriceMiss
  cases o with
  | netErr m => left; rfl
  | resp status body =>
    by_cases hok : httpOk status
    · by_cases hs : body.success
      · simp only [hok, hs, Bool.not_true, Bool.false_eq_true, if_false]
        by_cases hl : jsTruthyStr body.lowest_price
        · right; exact ⟨body.lowest_price.getD "", by simp [hl]⟩
        · by_cases hm : jsTruthyStr body.median_price
          · right; exact ⟨body.median_price.getD "", by simp [hl, hm]⟩
          · left; simp [hl, hm]
      · left; simp [hok, hs]
    · left; simp [hok]

theorem cacheGet_cacheSet (c : PriceCache) (key k : String)
    (e : JSNum × Int) :
    cacheGet (cacheSet c key e) k =
      if key = k then some e else cacheGet c k := by
  simp only [cacheGet, cacheSet, List.find?]
  split <;> rename_i hk
  · rw [if_pos (by simpa using hk)]
    rfl
  · rw [if_neg (by simpa using hk)]

/-- C9 (amended): every numeric value `getItemPrice` returns or stores
is non-negative — the `null` marker and `NaN` (for an upstream price
string with no parsable numeric prefix) are the only other
possibilities; negative numbers never occur, because the normalised
string contains no sign character. -/
theorem C9_nonneg_invariant :
    (∀ (s : String) (q : ℚ), parsePriceString s = some q → 0 ≤ q) ∧
    (∀ (c : PriceCache) (now : Int) (appId name : String) (cur : Nat)
        (o : PriceOutcome),
      (∀ k v ts q, cacheGet c k = some (v, ts) → v = some q → 0 ≤ q) →
      (∀ q, (getItemPrice c now appId name cur o).value = some (some q) →
        0 ≤ q) ∧
      (∀ k v ts q,
        cacheGet (getItemPrice c now appId name cur o).cache k =
          some (v, ts) → v = some q → 0 ≤ q)) := by
  refine ⟨parsePriceString_nonneg, ?_⟩
  intro c now appId name cur o hinv
  have hmiss : ∀ (hres : getItemPrice c now appId name cur o =
      getItemPrice.getItemPriceMiss c now (priceKey appId name cur) o),
      (∀ q, (getItemPrice c now appId name cur o).value = some (some q) →
        0 ≤ q) ∧
      (∀ k v ts q,
        cacheGet (getItemPrice c now appId name cur o).cache k =
          some (v, ts) → v = some q → 0 ≤ q) := by
    intro hres
    rw [hres]
    rcases miss_value_shape c now (priceKey appId name cur) o with hn | ⟨s, hp⟩
    · rw [miss_value_none _ _ _ _ hn]
      constructor
      · intro q hq
        rw [hn] at hq
        cases hq
      · exact hinv
    · rw [miss_value_some _ _ _ _ _ hp]
      constructor
      · intro q hq
        simp only at hq
        have : parsePriceString s = some q := by
          have := Option.some_injective _ hq
          exact this
        exact parsePriceString_nonneg s q this
      · intro k v ts q hk hv
        simp only at hk
        rw [cacheGet_cacheSet] at hk
        split at hk
        · have hpair := Option.some_injective _ hk
          injection hpair with hp1 hp2
          subst hp1
          exact parsePriceString_nonneg s q hv
        · exact hinv k v ts q hk hv
  cases hc : cacheGet c (priceKey appId name cur) with
  | none =>
    exact hmiss (by simp only [getItemPrice, hc])
  | some pts =>
    obtain ⟨p, ts⟩ := pts
    by_cases hf : now - ts < PRICE_CACHE_DURATION
    · have hres : getItemPrice c now appId name cur o =
          { value := some p, networkCalls := 0, cache := c,
            logged := false } := by
        simp only [getItemPrice, hc, if_pos hf]
      rw [hres]
      constructor
      · intro q hq
        have : p = some q := Option.some_injective _ hq
        exact hinv _ _ _ _ hc this
      · exact hinv
    · exact hmiss (by simp only [getItemPrice, hc, if_neg hf])

/-- C9 (counterexample to the claim as stated): an upstream
`lowest_price` of `"abc"` (truthy, but with no digits) parses to `NaN`;
the `NaN` is returned to the caller (it is not the `null` marker) and is
written into the price cache. -/
theorem C9_counterexample :
    (getItemPrice [] 0 "730" "X" 1
        (.resp 200 ⟨true, some "abc", none⟩)).value = some none ∧
    cacheGet (getItemPrice [] 0 "730" "X" 1
        (.resp 200 ⟨true, some "abc", none⟩)).cache
      (priceKey "730" "X" 1) = some (none, 0) :=
  ⟨by decide, by decide⟩

/-- Witness for C9 at a concrete parse on a concrete price string. -/
theorem C9_nonneg_invariant_witness :
    parsePriceString "$0.03" = some ((3 : ℚ) / 100) ∧
    0 ≤ ((3 : ℚ) / 100) := by
  have hp : parsePriceString "$0.03" = some ((3 : ℚ) / 100) := by
    have h1 : parsePriceNormalize "$0.03" = ['0', '.', '0', '3'] := by decide
    unfold parsePriceString
    rw [h1]
    show some ((1 : ℚ) * ((valDigitsBE ['0'] : ℚ) +
        (valDigitsBE ['0', '3'] : ℚ) /
          ((10 ^ (['0', '3'] : List Char).length : Nat) : ℚ))) =
      some ((3 : ℚ) / 100)
    norm_num [valDigitsBE, show charToDigit '0' = 0 from rfl,
      show charToDigit '3' = 3 from rfl]
  exact ⟨hp, C9_nonneg_invariant.1 "$0.03" ((3 : ℚ) / 100) hp⟩

end SKM
